import Mathlib

/-!
Verification of the tile network-graph engine of this repository.

The engine lives in four near-duplicate scripts: `src/Code/network_graph.js`
(static page variant), `src/unnamed/part_000` (filter/search page variant,
function `initializeTileGraph`), and `src/unnamed/part_001`, which holds a
second `initializeTileGraph` variant followed by an older static-page script
that drives the animation with `setInterval`.

Numeric JavaScript values are modelled as rationals (`ℚ`); the comparison
`distance < maxDistance` on a square root is embedded as the equivalent
comparison of squares (the bridge to `Real.sqrt` is proved in
`sqrt_dist_lt_iff`).  Canvas pixel output (discs, gradients, stroke calls)
is not modelled; node positions, the drawn edge set, the edge opacity value
and the lifecycle state are.
-/

namespace NetworkGraph

/-- A simulated particle: position `(x, y, z)` and velocity `(vx, vy, vz)`,
as created by `createNodes` in every variant. -/
structure Node where
  x : ℚ
  y : ℚ
  z : ℚ
  vx : ℚ
  vy : ℚ
  vz : ℚ
deriving DecidableEq

/-- Statement `node.x += node.vx` of `updateNodes`. -/
def updX (n : Node) : Node := { n with x := n.x + n.vx }

/-- Statement `node.y += node.vy` of `updateNodes`. -/
def updY (n : Node) : Node := { n with y := n.y + n.vy }

/-- Statement `node.z += node.vz` of `updateNodes`. -/
def updZ (n : Node) : Node := { n with z := n.z + n.vz }

/-- Statement `if (node.x < 0 || node.x > canvas.width) node.vx *= -1`
of `updateNodes` (`canvas.width / dpr` in the `initializeTileGraph`
variants; the bound is the parameter `w`). -/
def reflX (w : ℚ) (n : Node) : Node :=
  if n.x < 0 ∨ n.x > w then { n with vx := -n.vx } else n

/-- Statement `if (node.y < 0 || node.y > canvas.height) node.vy *= -1`
of `updateNodes`. -/
def reflY (h : ℚ) (n : Node) : Node :=
  if n.y < 0 ∨ n.y > h then { n with vy := -n.vy } else n

/-- Statement `if (node.z < 0 || node.z > perspectiveDepth) node.vz *= -1`
of `updateNodes`. -/
def reflZ (d : ℚ) (n : Node) : Node :=
  if n.z < 0 ∨ n.z > d then { n with vz := -n.vz } else n

/-- The body of the `nodes.forEach` loop of `updateNodes`
(`src/Code/network_graph.js` lines 130-141, `src/unnamed/part_000`
lines 127-136): the three position updates in statement order, then the
three reflection tests on the already-updated coordinates. -/
def tickNode (w h d : ℚ) (n : Node) : Node :=
  reflZ d (reflY h (reflX w (updZ (updY (updX n)))))

/-- `updateNodes`: the per-node tick applied to every node of the batch. -/
def updateNodes (w h d : ℚ) (ns : List Node) : List Node :=
  ns.map (tickNode w h d)

/-- The defensive render clamp executed per node at the top of
`drawNodesAndEdges` (`src/Code/network_graph.js` lines 93-95):
`node.x = Math.max(0, Math.min(canvas.width, node.x))` and likewise for
`y` and `z`. -/
def clampNode (w h d : ℚ) (n : Node) : Node :=
  { n with
    x := max 0 (min w n.x)
    y := max 0 (min h n.y)
    z := max 0 (min d n.z) }

/-- Position within the closed per-axis bounds of the instance. -/
def inBounds (w h d : ℚ) (n : Node) : Prop :=
  0 ≤ n.x ∧ n.x ≤ w ∧ 0 ≤ n.y ∧ n.y ≤ h ∧ 0 ≤ n.z ∧ n.z ≤ d

/-- One frame of `animate()`: `drawNodesAndEdges()` (whose only effect on
the simulation state is the defensive clamp) followed by `updateNodes()`. -/
def frameStep (w h d : ℚ) (n : Node) : Node :=
  tickNode w h d (clampNode w h d n)

/-- `getNodeSize` of `src/unnamed/part_000` lines 80-82 and
`src/unnamed/part_001` lines 110-112 (inlined at
`src/Code/network_graph.js` line 97):
`minNodeSize + ((baseNodeSize - minNodeSize) * (z / perspectiveDepth))`. -/
def getNodeSize (minNodeSize baseNodeSize perspectiveDepth z : ℚ) : ℚ :=
  minNodeSize + (baseNodeSize - minNodeSize) * (z / perspectiveDepth)

/-- Squared 3-dimensional Euclidean distance between two nodes, the
radicand of the `Math.sqrt` call in `drawNodesAndEdges`. -/
def dist2 (a b : Node) : ℚ :=
  (a.x - b.x) ^ 2 + (a.y - b.y) ^ 2 + (a.z - b.z) ^ 2

/-- Edge opacity, `src/Code/network_graph.js` line 115 and
`src/unnamed/part_000` line 115:
`(1 - distance / maxDistance) * 0.3`. -/
def edgeOpacity (maxDistance distance : ℚ) : ℚ :=
  (1 - distance / maxDistance) * (3 / 10)

/-- Inner loop of `drawNodesAndEdges` for the node at index `i` (already
clamped to `c`): `for (let j = index + 1; j < nodes.length; j++)` over the
still-unprocessed suffix `rest`, starting at absolute index `j0 = i + 1`.
An index pair `(i, j)` is recorded exactly when the code strokes the line,
i.e. when `distance < maxDistance`, embedded on squares. -/
def innerEdges (maxD : ℚ) (i : ℕ) (c : Node) : List Node → ℕ → List (ℕ × ℕ)
  | [], _ => []
  | b :: bs, j0 =>
      (if dist2 c b < maxD ^ 2 then [(i, j0)] else []) ++ innerEdges maxD i c bs (j0 + 1)

/-- The `nodes.forEach((node, index) => ...)` pass of `drawNodesAndEdges`
(`src/Code/network_graph.js` lines 91-124): each iteration clamps its own
node in place, then runs the inner edge loop over the later nodes, which at
that moment are still unclamped.  Returns the drawn index pairs and the
node list as the pass leaves it. -/
def renderLoop (w h d maxD : ℚ) : List Node → ℕ → List (ℕ × ℕ) × List Node
  | [], _ => ([], [])
  | n :: rest, i =>
      let c := clampNode w h d n
      let es := innerEdges maxD i c rest (i + 1)
      let p := renderLoop w h d maxD rest (i + 1)
      (es ++ p.1, c :: p.2)

/-- Index pairs of the edges drawn by one `drawNodesAndEdges` pass. -/
def renderEdges (w h d maxD : ℚ) (ns : List Node) : List (ℕ × ℕ) :=
  (renderLoop w h d maxD ns 0).1

/-- Node list after one `drawNodesAndEdges` pass (every node clamped). -/
def renderNodes (w h d maxD : ℚ) (ns : List Node) : List Node :=
  (renderLoop w h d maxD ns 0).2

/-- Index pairs the inner loop iterates over for outer index `i`, inner
indices `j0, j0 + 1, ...` along a suffix of length `m` (the loop control
`for (let j = index + 1; j < nodes.length; j++)`, with no distance test). -/
def consideredInner (i j0 : ℕ) : ℕ → List (ℕ × ℕ)
  | 0 => []
  | m + 1 => (i, j0) :: consideredInner i (j0 + 1) m

/-- All index pairs the nested loops of `drawNodesAndEdges` consider for a
node list of length `m` whose first element has absolute index `i`. -/
def consideredLoop : ℕ → ℕ → List (ℕ × ℕ)
  | 0, _ => []
  | m + 1, i => consideredInner i (i + 1) m ++ consideredLoop m (i + 1)

/-- Undirected adjacency induced by the drawn line segments: a stroked line
connects its two endpoints symmetrically. -/
def edgeRel (w h d maxD : ℚ) (ns : List Node) (a b : ℕ) : Prop :=
  (a, b) ∈ renderEdges w h d maxD ns ∨ (b, a) ∈ renderEdges w h d maxD ns

/-! ### Lifecycle of the guarded variants

`src/Code/network_graph.js` lines 168-183, `src/unnamed/part_000` lines
149-161 and the `initializeTileGraph` of `src/unnamed/part_001` lines
176-189 share the same hover lifecycle: `mouseover` starts the
`requestAnimationFrame` loop only when `animationFrameId` is unset, and
`mouseleave` cancels it, nulls the handle and redraws once, only when it is
set.  A self-perpetuating `requestAnimationFrame` chain is modelled as one
active loop entity identified by the id of its first registration;
`renders` counts the synchronous `drawNodesAndEdges` calls performed so
far (one at initialization, one by the first frame of `animate()`, one by
the `mouseleave` handler). -/

/-- Hover triggers delivered to one tile instance. -/
inductive Ev
  | start
  | stop
deriving DecidableEq

/-- Observable state of one guarded instance: the `animationFrameId`
variable, a fresh-id counter, the ids of the animation loops currently
running in the host, and the count of static renders performed. -/
structure LC where
  handle : Option ℕ
  nextId : ℕ
  active : List ℕ
  renders : ℕ
deriving DecidableEq

/-- State after `initialize()`: no loop, one static render done. -/
def initLC : LC := ⟨none, 1, [], 1⟩

/-- The two guarded event handlers.  `mouseover`: if `!animationFrameId`,
call `animate()`, which draws one frame synchronously and registers the
loop, storing its handle.  `mouseleave`: if `animationFrameId`, call
`cancelAnimationFrame`, set the handle to `null` and redraw once. -/
def stepG (s : LC) : Ev → LC
  | Ev.start =>
      if s.handle = none then
        { handle := some s.nextId
          nextId := s.nextId + 1
          active := s.active ++ [s.nextId]
          renders := s.renders + 1 }
      else s
  | Ev.stop =>
      match s.handle with
      | some i =>
          { handle := none
            nextId := s.nextId
            active := s.active.erase i
            renders := s.renders + 1 }
      | none => s

/-- Run a trigger sequence from the freshly initialized instance. -/
def runEvents (evs : List Ev) : LC :=
  evs.foldl stepG initLC

/-- Structural invariant of the guarded lifecycle: the handle is unset
exactly when no loop runs, and names the unique running loop otherwise. -/
def InvG (s : LC) : Prop :=
  match s.handle with
  | none => s.active = []
  | some i => s.active = [i]

/-! ### Lifecycle of the older static-page variant

`src/unnamed/part_001` lines 316-329: `mouseover` runs `resizeCanvas()`,
`createNodes()`, `draw()` and then unconditionally
`animationFrameId = setInterval(animate, 30)`; `draw()` itself ends with
`animationFrameId = requestAnimationFrame(draw)`, registering a second,
self-perpetuating loop.  `mouseleave` runs
`clearInterval(animationFrameId)` and `ctx.clearRect(...)`; it never
assigns `animationFrameId` and never redraws the graph. -/

/-- Observable state of one instance of the older variant; `draws` counts
the `draw()` calls performed by handlers. -/
structure LCU where
  handle : Option ℕ
  nextId : ℕ
  active : List ℕ
  draws : ℕ
deriving DecidableEq

/-- State after load: this variant performs no initial draw. -/
def initLCU : LCU := ⟨none, 1, [], 0⟩

/-- `draw()` of the older variant: renders once and re-registers itself
via `requestAnimationFrame`, storing the new id in `animationFrameId`. -/
def drawU (s : LCU) : LCU :=
  { handle := some s.nextId
    nextId := s.nextId + 1
    active := s.active ++ [s.nextId]
    draws := s.draws + 1 }

/-- The older `mouseover` handler (`src/unnamed/part_001` lines 316-321):
`draw()` followed by `animationFrameId = setInterval(animate, 30)`, with
no guard on a loop already running. -/
def startU (s : LCU) : LCU :=
  let s1 := drawU s
  { handle := some s1.nextId
    nextId := s1.nextId + 1
    active := s1.active ++ [s1.nextId]
    draws := s1.draws }

/-- The older `mouseleave` handler (`src/unnamed/part_001` lines 326-329):
`clearInterval(animationFrameId)` cancels the loop the handle names, if
any; the handle is left as it was and nothing is redrawn (the canvas is
cleared instead). -/
def stopU (s : LCU) : LCU :=
  { s with
    active :=
      match s.handle with
      | some i => s.active.erase i
      | none => s.active }

/-! ### Instance construction (the factory) -/

/-- A drawing surface; `ctx2d` is the result of `getContext('2d')`. -/
structure CanvasEl where
  ctx2d : Option Unit
deriving DecidableEq

/-- A tile region; `canvas` is the result of
`tile.querySelector('.network-canvas')`. -/
structure Tile where
  canvas : Option CanvasEl
deriving DecidableEq

/-- Outcome of constructing one tile instance in the guarded factory. -/
inductive InitResult
  | noCanvas
  | noCtx
  | ok
deriving DecidableEq

/-- `initializeTileGraph` of `src/unnamed/part_000` lines 22-33 (same
guards in `src/unnamed/part_001` lines 39-54): a missing canvas or a
missing 2D context is logged via `console.error` and the function returns
normally without constructing the instance. -/
def initializeTileGraph (t : Tile) : InitResult × List String :=
  match t.canvas with
  | none => (InitResult.noCanvas, ["Canvas not found."])
  | some c =>
      match c.ctx2d with
      | none => (InitResult.noCtx, ["Unable to get canvas context."])
      | some _ => (InitResult.ok, [])

/-- `initializeVisibleTiles`: the discovery pass constructs every eligible
tile in order, one `initializeTileGraph` call each. -/
def initializeVisibleTiles : List Tile → List (InitResult × List String)
  | [] => []
  | t :: ts => initializeTileGraph t :: initializeVisibleTiles ts

/-- A thrown JavaScript exception. -/
inductive JsError
  | typeError
deriving DecidableEq

/-- The unguarded construction of `src/Code/network_graph.js` lines 26-29:
`canvas.getContext('2d')` throws a `TypeError` when the tile has no
canvas, and with a `null` context the first context call inside
`initialize()` (`ctx.createLinearGradient` via `drawBackground`) throws. -/
def initStaticTile (t : Tile) : Except JsError Unit :=
  match t.canvas with
  | none => Except.error JsError.typeError
  | some c =>
      match c.ctx2d with
      | none => Except.error JsError.typeError
      | some _ => Except.ok ()

/-- The `document.querySelectorAll('.tile_static_page').forEach` pass of
`src/Code/network_graph.js`: an exception thrown by one callback aborts
the iteration, so the tiles after it are never constructed.  Returns the
number of tiles fully constructed and the escaping exception, if any. -/
def runStaticPass : List Tile → ℕ × Option JsError
  | [] => (0, none)
  | t :: ts =>
      match initStaticTile t with
      | Except.error e => (0, some e)
      | Except.ok _ =>
          let p := runStaticPass ts
          (p.1 + 1, p.2)

/-! ### Concrete sample data used by witnesses and counterexamples -/

/-- Sample node for the single-tick witness. -/
def c1Node : Node := ⟨1, 2, 3, 1, 1, 1⟩

/-- Sample out-of-bounds node for the frame-restoration witness. -/
def c2Node : Node := ⟨-5, 250, 17, 3, 3, 3⟩

/-- First node of the opacity scenario: position `(0, 0, 0)`. -/
def nodeA : Node := ⟨0, 0, 0, 0, 0, 0⟩

/-- Second node of the opacity scenario: position `(50, 0, 0)`. -/
def nodeB : Node := ⟨50, 0, 0, 0, 0, 0⟩

/-- Sample nodes for the edge-pass witness. -/
def c6Nodes : List Node := [⟨0, 0, 0, 0, 0, 0⟩, ⟨30, 40, 0, 0, 0, 0⟩]

/-- The node of the reflection scenario: `x = 0.1`, `vx = -0.4`. -/
def c8Node : Node := ⟨1 / 10, 5, 5, -2 / 5, 0, 0⟩

/-- Node whose tick lands every coordinate exactly on a boundary. -/
def c10Boundary : Node := ⟨1 / 2, 100, 100, -1 / 2, 0, 0⟩

/-- Node whose tick crosses the lower x boundary. -/
def c10Crossing : Node := ⟨-1, 0, 0, -1, 0, 0⟩

/-- A tile lacking a drawing surface. -/
def badTile : Tile := ⟨none⟩

/-- A healthy tile whose surface yields a 2D context. -/
def goodTile : Tile := ⟨some ⟨some ()⟩⟩

/-! ### Supporting lemmas -/

/-- Closed form of one tick: positions move by the velocity, and each
velocity component is negated exactly when its own updated coordinate
falls strictly outside the closed interval of its axis. -/
theorem tickNode_eq (w h d : ℚ) (n : Node) :
    tickNode w h d n =
      { x := n.x + n.vx
        y := n.y + n.vy
        z := n.z + n.vz
        vx := if n.x + n.vx < 0 ∨ n.x + n.vx > w then -n.vx else n.vx
        vy := if n.y + n.vy < 0 ∨ n.y + n.vy > h then -n.vy else n.vy
        vz := if n.z + n.vz < 0 ∨ n.z + n.vz > d then -n.vz else n.vz } := by
  simp only [tickNode, updX, updY, updZ, reflX, reflY, reflZ]
  split_ifs <;> rfl

/-- The defensive clamp lands inside the closed bounds whenever the bounds
are non-negative. -/
theorem clampNode_inBounds (w h d : ℚ) (hw : 0 ≤ w) (hh : 0 ≤ h) (hd : 0 ≤ d)
    (n : Node) : inBounds w h d (clampNode w h d n) := by
  refine ⟨le_max_left _ _, max_le hw (min_le_left _ _),
    le_max_left _ _, max_le hh (min_le_left _ _),
    le_max_left _ _, max_le hd (min_le_left _ _)⟩

/-- A velocity component is not negated when its updated coordinate sits
exactly on a boundary of a non-negative bound: the reflection test is
strict. -/
theorem boundary_no_flip (bound a v : ℚ) (hb : 0 ≤ bound) (ha : a = 0 ∨ a = bound) :
    (if a < 0 ∨ a > bound then -v else v) = v := by
  rw [if_neg]
  rcases ha with ha | ha <;> rw [ha] <;> push_neg <;> constructor <;> linarith

/-- A velocity component changes only when the updated coordinate is
strictly outside the closed interval. -/
theorem flip_imp_outside (bound a v : ℚ) :
    (if a < 0 ∨ a > bound then -v else v) ≠ v → a < 0 ∨ a > bound := by
  intro hne
  by_contra hc
  rw [if_neg hc] at hne
  exact hne rfl

/-! ### Claim theorems -/

/-- C1: in one `updateNodes` tick, every node's new position is the old
position plus the velocity on each of the three axes, and a velocity
component is negated if and only if the corresponding updated coordinate
lies strictly outside its closed bounds, each axis checked independently
and with no clamping of positions inside the tick. -/
theorem updateNodes_tick_spec (w h d : ℚ) (ns : List Node) (k : ℕ) (n : Node)
    (hk : ns[k]? = some n) :
    (updateNodes w h d ns)[k]? = some
      { x := n.x + n.vx
        y := n.y + n.vy
        z := n.z + n.vz
        vx := if n.x + n.vx < 0 ∨ n.x + n.vx > w then -n.vx else n.vx
        vy := if n.y + n.vy < 0 ∨ n.y + n.vy > h then -n.vy else n.vy
        vz := if n.z + n.vz < 0 ∨ n.z + n.vz > d then -n.vz else n.vz } := by
  simp [updateNodes, List.getElem?_map, hk, tickNode_eq]

/-- Witness for C1 at a concrete one-node batch. -/
theorem updateNodes_tick_spec_witness :
    (updateNodes 100 100 100 [c1Node])[0]? = some
      { x := c1Node.x + c1Node.vx
        y := c1Node.y + c1Node.vy
        z := c1Node.z + c1Node.vz
        vx := if c1Node.x + c1Node.vx < 0 ∨ c1Node.x + c1Node.vx > 100 then -c1Node.vx else c1Node.vx
        vy := if c1Node.y + c1Node.vy < 0 ∨ c1Node.y + c1Node.vy > 100 then -c1Node.vy else c1Node.vy
        vz := if c1Node.z + c1Node.vz < 0 ∨ c1Node.z + c1Node.vz > 100 then -c1Node.vz else c1Node.vz } :=
  updateNodes_tick_spec 100 100 100 [c1Node] 0 c1Node rfl

/-- C2: under the repeating frame step (render with its defensive clamp,
then one tick), the position drawn at every frame lies in the closed
bounds; in particular a coordinate that leaves its bounds is restored to
the closed interval by the very next render, so no node escapes its bounds
permanently. -/
theorem frame_keeps_bounds (w h d : ℚ) (hw : 0 ≤ w) (hh : 0 ≤ h) (hd : 0 ≤ d) :
    (∀ n : Node, inBounds w h d (clampNode w h d n)) ∧
      ∀ (k : ℕ) (n : Node),
        inBounds w h d (clampNode w h d ((frameStep w h d)^[k] n)) :=
  ⟨clampNode_inBounds w h d hw hh hd,
    fun _ _ => clampNode_inBounds w h d hw hh hd _⟩

/-- Witness for C2: a node far outside a 100-by-100-by-100 instance is
drawn inside the bounds at the third frame. -/
theorem frame_keeps_bounds_witness :
    inBounds 100 100 100 (clampNode 100 100 100 ((frameStep 100 100 100)^[3] c2Node)) :=
  (frame_keeps_bounds 100 100 100 (by norm_num) (by norm_num) (by norm_num)).2 3 c2Node

/-- C5: `getNodeSize` is monotonically non-decreasing in `z` and takes the
value `minNodeSize` at `z = 0` and `baseNodeSize` at
`z = perspectiveDepth`, for any constants with `minNodeSize ≤ baseNodeSize`
and a positive depth — as configured in every variant (6 and 10 at depth
100 in part_000, 5 and 8 in part_001, 10 and 10 in network_graph.js). -/
theorem getNodeSize_spec (mn bs pd : ℚ) (hmb : mn ≤ bs) (hpd : 0 < pd) :
    (∀ z1 z2 : ℚ, z1 ≤ z2 → getNodeSize mn bs pd z1 ≤ getNodeSize mn bs pd z2) ∧
      getNodeSize mn bs pd 0 = mn ∧ getNodeSize mn bs pd pd = bs := by
  refine ⟨fun z1 z2 hz => ?_, by simp [getNodeSize], ?_⟩
  · unfold getNodeSize
    have hnn : 0 ≤ bs - mn := by linarith
    have hdiv : z1 / pd ≤ z2 / pd := (div_le_div_iff_of_pos_right hpd).mpr hz
    exact add_le_add_left (mul_le_mul_of_nonneg_left hdiv hnn) mn
  · unfold getNodeSize
    rw [div_self (ne_of_gt hpd)]
    ring

/-- Witness for C5 at the part_000 constants. -/
theorem getNodeSize_spec_witness :
    getNodeSize 6 10 100 30 ≤ getNodeSize 6 10 100 70 ∧
      getNodeSize 6 10 100 0 = 6 ∧ getNodeSize 6 10 100 100 = 10 :=
  ⟨(getNodeSize_spec 6 10 100 (by norm_num) (by norm_num)).1 30 70 (by norm_num),
    (getNodeSize_spec 6 10 100 (by norm_num) (by norm_num)).2.1,
    (getNodeSize_spec 6 10 100 (by norm_num) (by norm_num)).2.2⟩

/-- C10: the reflection test is strict, so a node whose updated coordinate
is exactly 0 or exactly the (non-negative) bound keeps that velocity
component unchanged, and a velocity component changes only when the
updated coordinate is strictly outside the closed interval. -/
theorem tick_boundary_spec (w h d : ℚ) (n : Node)
    (hw : 0 ≤ w) (hh : 0 ≤ h) (hd : 0 ≤ d) :
    (((tickNode w h d n).x = 0 ∨ (tickNode w h d n).x = w) →
        (tickNode w h d n).vx = n.vx) ∧
      (((tickNode w h d n).y = 0 ∨ (tickNode w h d n).y = h) →
        (tickNode w h d n).vy = n.vy) ∧
      (((tickNode w h d n).z = 0 ∨ (tickNode w h d n).z = d) →
        (tickNode w h d n).vz = n.vz) ∧
      ((tickNode w h d n).vx ≠ n.vx →
        (tickNode w h d n).x < 0 ∨ (tickNode w h d n).x > w) ∧
      ((tickNode w h d n).vy ≠ n.vy →
        (tickNode w h d n).y < 0 ∨ (tickNode w h d n).y > h) ∧
      ((tickNode w h d n).vz ≠ n.vz →
        (tickNode w h d n).z < 0 ∨ (tickNode w h d n).z > d) := by
  rw [tickNode_eq]
  exact ⟨boundary_no_flip w _ _ hw, boundary_no_flip h _ _ hh, boundary_no_flip d _ _ hd,
    flip_imp_outside w _ _, flip_imp_outside h _ _, flip_imp_outside d _ _⟩

/-- Witness for C10: a tick landing exactly on the lower x boundary keeps
`vx`, and a tick crossing the boundary strictly lands outside. -/
theorem tick_boundary_spec_witness :
    (tickNode 100 100 100 c10Boundary).vx = c10Boundary.vx ∧
      ((tickNode 100 100 100 c10Crossing).x < 0 ∨
        (tickNode 100 100 100 c10Crossing).x > 100) :=
  ⟨(tick_boundary_spec 100 100 100 c10Boundary (by norm_num) (by norm_num) (by norm_num)).1
      (Or.inl (by rw [tickNode_eq]; norm_num [c10Boundary])),
    (tick_boundary_spec 100 100 100 c10Crossing (by norm_num) (by norm_num) (by norm_num)).2.2.2.1
      (by rw [tickNode_eq]; norm_num [c10Crossing])⟩

/-- C8 counterexample: from `x = 0.1`, `vx = -0.4` one tick puts the node
at `x = -0.3`, not at `x = -3` as the claim (following the spec scenario)
states. -/
theorem tick_scenario_cex :
    (tickNode 100 100 100 c8Node).x = -(3 / 10) ∧
      (tickNode 100 100 100 c8Node).x ≠ -3 := by
  rw [tickNode_eq]
  norm_num [c8Node]

/-- C8 amended: from `x = 0.1`, `vx = -0.4` one tick yields `x = -0.3`
with `vx = +0.4`, and the render clamp then draws it at `x = 0` while the
stored velocity stays `+0.4` (the clamp never touches velocities). -/
theorem tick_scenario_amended :
    (tickNode 100 100 100 c8Node).x = -(3 / 10) ∧
      (tickNode 100 100 100 c8Node).vx = 2 / 5 ∧
      (clampNode 100 100 100 (tickNode 100 100 100 c8Node)).x = 0 ∧
      (clampNode 100 100 100 (tickNode 100 100 100 c8Node)).vx = 2 / 5 := by
  rw [tickNode_eq]
  norm_num [clampNode, c8Node, min_def, max_def]

/-- The invariant holds in the freshly initialized state. -/
theorem invG_init : InvG initLC := rfl

/-- Each guarded handler preserves the lifecycle invariant. -/
theorem invG_step (s : LC) (hs : InvG s) : ∀ e : Ev, InvG (stepG s e) := by
  intro e
  cases e with
  | start =>
    rcases hh : s.handle with _ | i
    · have ha : s.active = [] := by simpa [InvG, hh] using hs
      simp [stepG, hh, InvG, ha]
    · simpa [stepG, hh] using hs
  | stop =>
    rcases hh : s.handle with _ | i
    · simpa [stepG, hh] using hs
    · have ha : s.active = [i] := by simpa [InvG, hh] using hs
      simp [stepG, hh, InvG, ha]

/-- The invariant is preserved along any fold of guarded events. -/
theorem foldl_invG (evs : List Ev) : ∀ s : LC, InvG s → InvG (evs.foldl stepG s) := by
  induction evs with
  | nil => intro s hs; simpa using hs
  | cons e evs ih => intro s hs; exact ih _ (invG_step s hs e)

/-- Every reachable state of a guarded instance satisfies the invariant. -/
theorem runEvents_inv (evs : List Ev) : InvG (runEvents evs) :=
  foldl_invG evs initLC invG_init

/-- Under the invariant, at most one loop is active. -/
theorem invG_length (s : LC) (hs : InvG s) : s.active.length ≤ 1 := by
  unfold InvG at hs
  rcases hh : s.handle with _ | i <;> rw [hh] at hs <;> simp [hs]

/-- After a start trigger the handle is always set. -/
theorem start_handle_ne (s : LC) : (stepG s Ev.start).handle ≠ none := by
  by_cases hh : s.handle = none
  · simp [stepG, hh]
  · rw [show stepG s Ev.start = s from by simp [stepG, hh]]
    exact hh

/-- A start trigger on a state whose handle is set is a no-op. -/
theorem step_start_of_ne (s : LC) (hh : s.handle ≠ none) : stepG s Ev.start = s := by
  simp [stepG, hh]

/-- C3 counterexample: in the older static-page variant of
`src/unnamed/part_001` (lines 316-321) the `mouseover` handler registers
loops unconditionally, so a second start trigger is not a no-op and two
consecutive start triggers leave four loops running (two
`requestAnimationFrame` chains from `draw()` and two intervals) — not the
single active loop the claim asserts for every instance. -/
theorem startU_cex :
    startU (startU initLCU) ≠ startU initLCU ∧
      (startU (startU initLCU)).active = [1, 2, 3, 4] ∧
      ¬ (startU (startU initLCU)).active.length ≤ 1 := by
  decide

/-- C3 amended: for the guarded variants (`src/Code/network_graph.js`
lines 168-172, `src/unnamed/part_000` lines 149-153, and
`initializeTileGraph` of `src/unnamed/part_001` lines 176-180), after any
trigger sequence at most one loop is active, a start trigger while a loop
is active is a no-op, and two consecutive start triggers yield exactly one
active loop. -/
theorem start_idempotent (evs : List Ev) :
    (runEvents evs).active.length ≤ 1 ∧
      ((runEvents evs).handle ≠ none → stepG (runEvents evs) Ev.start = runEvents evs) ∧
      stepG (stepG (runEvents evs) Ev.start) Ev.start = stepG (runEvents evs) Ev.start ∧
      (stepG (stepG (runEvents evs) Ev.start) Ev.start).active.length = 1 := by
  have hinv := runEvents_inv evs
  have hinv1 := invG_step _ hinv Ev.start
  have hne := start_handle_ne (runEvents evs)
  have hstep2 : stepG (stepG (runEvents evs) Ev.start) Ev.start =
      stepG (runEvents evs) Ev.start := step_start_of_ne _ hne
  refine ⟨invG_length _ hinv, fun hh => step_start_of_ne _ hh, hstep2, ?_⟩
  rw [hstep2]
  unfold InvG at hinv1
  rcases hh : (stepG (runEvents evs) Ev.start).handle with _ | i
  · exact absurd hh hne
  · rw [hh] at hinv1
    simp [hinv1]

/-- Witness for C3: after one start trigger a further start trigger
changes nothing. -/
theorem start_idempotent_witness :
    stepG (runEvents [Ev.start]) Ev.start = runEvents [Ev.start] :=
  (start_idempotent [Ev.start]).2.1 (by decide)

/-- C4 counterexample: in the older static-page variant of
`src/unnamed/part_001` (lines 326-329) a stop trigger in the Running state
leaves the loop handle set (it is never assigned `null`), performs no
static render of the nodes and edges (the canvas is cleared instead), and
leaves the `requestAnimationFrame` chain started by `draw()` running —
contradicting the claim for that instance. -/
theorem stopU_cex :
    (stopU (startU initLCU)).handle ≠ none ∧
      (stopU (startU initLCU)).draws = (startU initLCU).draws ∧
      (stopU (startU initLCU)).active ≠ [] := by
  decide

/-- C4 amended: for the guarded variants (`src/Code/network_graph.js`
lines 177-183, `src/unnamed/part_000` lines 155-161, and
`initializeTileGraph` of `src/unnamed/part_001` lines 183-189), a stop
trigger in the Idle state is a no-op leaving the whole instance state (and
hence the rendered frame) unchanged; in the Running state it cancels the
loop, sets the handle to `null` and performs exactly one static render, so
two consecutive stop triggers from the Running state yield exactly one
static re-render. -/
theorem stop_spec (evs : List Ev) :
    ((runEvents evs).handle = none → stepG (runEvents evs) Ev.stop = runEvents evs) ∧
      (∀ i : ℕ, (runEvents evs).handle = some i →
        stepG (runEvents evs) Ev.stop =
          { handle := none
            nextId := (runEvents evs).nextId
            active := (runEvents evs).active.erase i
            renders := (runEvents evs).renders + 1 } ∧
          (stepG (runEvents evs) Ev.stop).active = []) ∧
      (stepG (stepG (runEvents evs) Ev.stop) Ev.stop).renders =
        (if (runEvents evs).handle = none then (runEvents evs).renders
          else (runEvents evs).renders + 1) := by
  have hinv := runEvents_inv evs
  refine ⟨fun hh => by simp [stepG, hh], fun i hh => ?_, ?_⟩
  · have ha : (runEvents evs).active = [i] := by
      unfold InvG at hinv
      rw [hh] at hinv
      exact hinv
    constructor
    · simp [stepG, hh]
    · simp [stepG, hh, ha]
  · rcases hh : (runEvents evs).handle with _ | i
    · simp [stepG, hh]
    · simp [stepG, hh]

/-- Witness for C4: one stop after one start cancels everything, and a
stop on the freshly initialized Idle instance changes nothing. -/
theorem stop_spec_witness :
    (stepG (runEvents [Ev.start]) Ev.stop).active = [] ∧
      stepG (runEvents []) Ev.stop = runEvents [] :=
  ⟨((stop_spec [Ev.start]).2.1 1 (by decide)).2,
    (stop_spec []).1 (by decide)⟩

/-- The guarded discovery pass is one independent construction per tile. -/
theorem initializeVisibleTiles_eq_map (ts : List Tile) :
    initializeVisibleTiles ts = ts.map initializeTileGraph := by
  induction ts with
  | nil => rfl
  | cons t ts ih => simp [initializeVisibleTiles, ih]

/-- C9 counterexample: in `src/Code/network_graph.js` (lines 26-29) the
construction is unguarded, so a tile without a canvas makes
`canvas.getContext` throw; the exception escapes the `forEach`, so the
pass raises an error, nothing is logged, and the healthy tile after the
broken one is never constructed — whereas a pass over healthy tiles
constructs them all. -/
theorem staticPass_cex :
    runStaticPass [badTile, goodTile] = (0, some JsError.typeError) ∧
      runStaticPass [goodTile, goodTile] = (2, none) := by
  constructor <;> rfl

/-- C9 amended: in the guarded factories (`initializeTileGraph` of
`src/unnamed/part_000` lines 22-33 and of `src/unnamed/part_001` lines
39-54), a region with no canvas, or whose canvas yields no 2D context,
logs the condition and aborts that construction without raising an error,
and every other region is constructed independently: the pass returns one
result per tile, each depending only on its own tile. -/
theorem initTiles_spec (ts : List Tile) :
    (initializeVisibleTiles ts).length = ts.length ∧
      (∀ (i : ℕ) (t : Tile), ts[i]? = some t →
        (initializeVisibleTiles ts)[i]? = some (initializeTileGraph t)) ∧
      (∀ t : Tile, t.canvas = none →
        initializeTileGraph t = (InitResult.noCanvas, ["Canvas not found."])) ∧
      (∀ (t : Tile) (c : CanvasEl), t.canvas = some c → c.ctx2d = none →
        initializeTileGraph t = (InitResult.noCtx, ["Unable to get canvas context."])) := by
  refine ⟨?_, fun i t ht => ?_, fun t ht => ?_, fun t c ht hc => ?_⟩
  · rw [initializeVisibleTiles_eq_map, List.length_map]
  · rw [initializeVisibleTiles_eq_map, List.getElem?_map, ht, Option.map_some']
  · simp [initializeTileGraph, ht]
  · simp [initializeTileGraph, ht, hc]

/-- Witness for C9: a broken tile followed by a healthy one — the healthy
tile is still constructed and the broken one is logged and skipped. -/
theorem initTiles_spec_witness :
    (initializeVisibleTiles [badTile, goodTile])[1]? = some (initializeTileGraph goodTile) ∧
      initializeTileGraph badTile = (InitResult.noCanvas, ["Canvas not found."]) :=
  ⟨(initTiles_spec [badTile, goodTile]).2.1 1 goodTile rfl,
    (initTiles_spec [badTile, goodTile]).2.2.1 badTile rfl⟩

/-- Each pair `(i, j)` with `j0 ≤ j < j0 + m` occurs exactly once among
the iterations of one inner loop. -/
theorem count_consideredInner (i a b : ℕ) :
    ∀ m j0 : ℕ, (consideredInner i j0 m).count (a, b) =
      if a = i ∧ j0 ≤ b ∧ b < j0 + m then 1 else 0 := by
  intro m
  induction m with
  | zero =>
    intro j0
    simp only [consideredInner, List.count_nil]
    split_ifs with hcond
    · omega
    · rfl
  | succ m ih =>
    intro j0
    simp only [consideredInner, List.count_cons, ih (j0 + 1), beq_iff_eq, Prod.mk.injEq]
    split_ifs <;> omega

/-- Each pair `(a, b)` with `i ≤ a < b < i + m` is considered exactly once
by the nested loops, and no other pair is considered. -/
theorem count_consideredLoop (a b : ℕ) :
    ∀ m i : ℕ, (consideredLoop m i).count (a, b) =
      if i ≤ a ∧ a < b ∧ b < i + m then 1 else 0 := by
  intro m
  induction m with
  | zero =>
    intro i
    simp only [consideredLoop, List.count_nil]
    split_ifs with hcond
    · omega
    · rfl
  | succ m ih =>
    intro i
    simp only [consideredLoop, List.count_append, count_consideredInner, ih (i + 1)]
    split_ifs <;> omega

/-- The pairs drawn by one inner loop are among the pairs it considers. -/
theorem innerEdges_sublist (maxD : ℚ) (i : ℕ) (c : Node) :
    ∀ (rest : List Node) (j0 : ℕ),
      List.Sublist (innerEdges maxD i c rest j0) (consideredInner i j0 rest.length) := by
  intro rest
  induction rest with
  | nil =>
    intro j0
    simp [innerEdges, consideredInner]
  | cons x xs ih =>
    intro j0
    simp only [innerEdges, List.length_cons, consideredInner]
    by_cases hc : dist2 c x < maxD ^ 2
    · rw [if_pos hc]
      exact (ih (j0 + 1)).cons₂ _
    · rw [if_neg hc]
      exact (ih (j0 + 1)).cons _

/-- The pairs drawn by the whole pass are among the considered pairs. -/
theorem renderLoop_sublist (w h d maxD : ℚ) :
    ∀ (ns : List Node) (i : ℕ),
      List.Sublist ((renderLoop w h d maxD ns i).1) (consideredLoop ns.length i) := by
  intro ns
  induction ns with
  | nil =>
    intro i
    simp [renderLoop, consideredLoop]
  | cons n rest ih =>
    intro i
    show List.Sublist
      (innerEdges maxD i (clampNode w h d n) rest (i + 1) ++
        (renderLoop w h d maxD rest (i + 1)).1)
      (consideredInner i (i + 1) rest.length ++ consideredLoop rest.length (i + 1))
    exact List.Sublist.append (innerEdges_sublist maxD i _ rest (i + 1)) (ih (i + 1))

/-- Membership in one inner loop's drawn pairs: outer index `i`, inner
index `j0 + k` for the `k`-th later node, drawn exactly under the distance
test against the clamped outer node. -/
theorem mem_innerEdges (maxD : ℚ) (i : ℕ) (c : Node) :
    ∀ (rest : List Node) (j0 a b : ℕ),
      (a, b) ∈ innerEdges maxD i c rest j0 ↔
        ∃ (k : ℕ) (nb : Node), rest[k]? = some nb ∧ a = i ∧ b = j0 + k ∧
          dist2 c nb < maxD ^ 2 := by
  intro rest
  induction rest with
  | nil =>
    intro j0 a b
    simp [innerEdges]
  | cons x xs ih =>
    intro j0 a b
    simp only [innerEdges, List.mem_append]
    constructor
    · rintro (hm | hm)
      · by_cases hc : dist2 c x < maxD ^ 2
        · rw [if_pos hc] at hm
          simp only [List.mem_singleton, Prod.mk.injEq] at hm
          exact ⟨0, x, by simp, hm.1, by omega, hc⟩
        · rw [if_neg hc] at hm
          simp at hm
      · rcases (ih (j0 + 1) a b).mp hm with ⟨k, nb, hk, ha, hb, hcond⟩
        exact ⟨k + 1, nb, by simpa using hk, ha, by omega, hcond⟩
    · rintro ⟨k, nb, hk, ha, hb, hcond⟩
      cases k with
      | zero =>
        left
        have hx : x = nb := by simpa using hk
        rw [if_pos (hx ▸ hcond)]
        simp only [List.mem_singleton, Prod.mk.injEq]
        exact ⟨ha, by omega⟩
      | succ k =>
        right
        exact (ih (j0 + 1) a b).mpr ⟨k, nb, by simpa using hk, ha, by omega, hcond⟩

/-- Membership in the drawn pairs of the whole pass starting at absolute
index `i`: some `ka < kb` with the distance test taken between the clamped
`ka`-th node and the still-raw `kb`-th node. -/
theorem mem_renderLoopEdges (w h d maxD : ℚ) :
    ∀ (ns : List Node) (i a b : ℕ),
      (a, b) ∈ (renderLoop w h d maxD ns i).1 ↔
        ∃ (ka kb : ℕ) (na nb : Node),
          ka < kb ∧ ns[ka]? = some na ∧ ns[kb]? = some nb ∧
          a = i + ka ∧ b = i + kb ∧
          dist2 (clampNode w h d na) nb < maxD ^ 2 := by
  intro ns
  induction ns with
  | nil =>
    intro i a b
    simp [renderLoop]
  | cons n rest ih =>
    intro i a b
    show (a, b) ∈ innerEdges maxD i (clampNode w h d n) rest (i + 1) ++
        (renderLoop w h d maxD rest (i + 1)).1 ↔ _
    rw [List.mem_append, mem_innerEdges, ih (i + 1)]
    constructor
    · rintro (⟨k, nb, hk, ha, hb, hc⟩ | ⟨ka, kb, na, nb, hkk, hka, hkb, ha, hb, hc⟩)
      · exact ⟨0, k + 1, n, nb, by omega, by simp, by simpa using hk, by omega, by omega, hc⟩
      · exact ⟨ka + 1, kb + 1, na, nb, by omega, by simpa using hka, by simpa using hkb,
          by omega, by omega, hc⟩
    · rintro ⟨ka, kb, na, nb, hkk, hka, hkb, ha, hb, hc⟩
      cases ka with
      | zero =>
        cases kb with
        | zero => omega
        | succ kb =>
          left
          have hn : n = na := by simpa using hka
          refine ⟨kb, nb, by simpa using hkb, by omega, by omega, ?_⟩
          rw [← hn] at hc
          exact hc
      | succ ka =>
        cases kb with
        | zero => omega
        | succ kb =>
          right
          exact ⟨ka, kb, na, nb, by omega, by simpa using hka, by simpa using hkb,
            by omega, by omega, hc⟩

/-- Membership characterization for the drawn edges of one render pass. -/
theorem renderEdges_mem (w h d maxD : ℚ) (ns : List Node) (a b : ℕ) :
    (a, b) ∈ renderEdges w h d maxD ns ↔
      a < b ∧ ∃ na nb : Node, ns[a]? = some na ∧ ns[b]? = some nb ∧
        dist2 (clampNode w h d na) nb < maxD ^ 2 := by
  unfold renderEdges
  rw [mem_renderLoopEdges]
  constructor
  · rintro ⟨ka, kb, na, nb, hkk, hka, hkb, ha, hb, hc⟩
    refine ⟨by omega, na, nb, ?_, ?_, hc⟩
    · rw [show a = ka from by omega]
      exact hka
    · rw [show b = kb from by omega]
      exact hkb
  · rintro ⟨hab, na, nb, ha, hb, hc⟩
    exact ⟨a, b, na, nb, hab, ha, hb, by omega, by omega, hc⟩

/-- The comparison `Math.sqrt(dist2) < maxDistance` of the source is
equivalent to the squared comparison used in the embedding, for the
positive `maxDistance` of every variant. -/
theorem sqrt_dist_lt_iff (q m : ℚ) (hm : 0 < m) :
    Real.sqrt ((q : ℝ)) < (m : ℝ) ↔ q < m ^ 2 := by
  rw [Real.sqrt_lt' (by exact_mod_cast hm)]
  constructor
  · intro hlt
    exact_mod_cast hlt
  · intro hlt
    exact_mod_cast hlt

/-- C6: one render pass considers each unordered pair of distinct nodes
exactly once (inner loop over `j > index`), never a node with itself; it
draws the pair exactly when the 3-dimensional Euclidean distance (between
the node positions as the pass reads them) is strictly below
`maxDistance`, which for the positive `maxDistance` of every variant is
the squared comparison of the embedding; and the induced edge relation is
symmetric and irreflexive. -/
theorem drawNodesAndEdges_pairs_spec (w h d maxD : ℚ) (ns : List Node) (hm : 0 < maxD) :
    (∀ a b : ℕ, (consideredLoop ns.length 0).count (a, b) =
        if a < b ∧ b < ns.length then 1 else 0) ∧
      (∀ a : ℕ, (a, a) ∉ consideredLoop ns.length 0) ∧
      List.Sublist (renderEdges w h d maxD ns) (consideredLoop ns.length 0) ∧
      (∀ p : ℕ × ℕ, (renderEdges w h d maxD ns).count p ≤ 1) ∧
      (∀ a b : ℕ, (a, b) ∈ renderEdges w h d maxD ns ↔
        a < b ∧ ∃ na nb : Node, ns[a]? = some na ∧ ns[b]? = some nb ∧
          dist2 (clampNode w h d na) nb < maxD ^ 2) ∧
      (∀ na nb : Node,
        (Real.sqrt ((dist2 na nb : ℝ)) < (maxD : ℝ) ↔ dist2 na nb < maxD ^ 2)) ∧
      (∀ a b : ℕ, edgeRel w h d maxD ns a b ↔ edgeRel w h d maxD ns b a) ∧
      (∀ a : ℕ, ¬ edgeRel w h d maxD ns a a) := by
  have hsub : List.Sublist (renderEdges w h d maxD ns) (consideredLoop ns.length 0) :=
    renderLoop_sublist w h d maxD ns 0
  refine ⟨fun a b => ?_, fun a hmem => ?_, hsub, fun p => ?_, renderEdges_mem w h d maxD ns,
    fun na nb => sqrt_dist_lt_iff (dist2 na nb) maxD hm, fun a b => or_comm, fun a hrel => ?_⟩
  · rw [count_consideredLoop]
    split_ifs <;> omega
  · have hc := count_consideredLoop a a ns.length 0
    rw [if_neg (by omega)] at hc
    exact List.count_eq_zero.mp hc hmem
  · calc (renderEdges w h d maxD ns).count p ≤ (consideredLoop ns.length 0).count p :=
          hsub.count_le p
      _ ≤ 1 := by
          rcases p with ⟨a, b⟩
          rw [count_consideredLoop]
          split_ifs <;> omega
  · rcases hrel with hmem | hmem <;>
      exact absurd ((renderEdges_mem w h d maxD ns a a).mp hmem).1 (lt_irrefl a)

/-- Witness for C6 at a concrete two-node batch: the pair `(0, 1)` is
considered exactly once and no node is related to itself. -/
theorem drawNodesAndEdges_pairs_spec_witness :
    (consideredLoop c6Nodes.length 0).count (0, 1) = 1 ∧
      ¬ edgeRel 200 200 100 150 c6Nodes 0 0 := by
  have hs := drawNodesAndEdges_pairs_spec 200 200 100 150 c6Nodes (by norm_num)
  refine ⟨?_, hs.2.2.2.2.2.2.2 0⟩
  rw [hs.1 0 1, if_pos]
  exact ⟨by norm_num, by simp [c6Nodes]⟩

/-- C7 counterexample: for the scenario nodes at `(0, 0, 0)` and
`(50, 0, 0)` with `maxDistance = 150` the edge is drawn and its opacity is
`(1 - 50/150) * 0.3 = 0.2` exactly, which is not approximately `0.1667`
(it differs by more than one hundredth), refuting the approximate value
the claim carries over from the spec scenario. -/
theorem edgeOpacity_cex :
    (0, 1) ∈ renderEdges 200 200 100 150 [nodeA, nodeB] ∧
      Real.sqrt ((dist2 nodeA nodeB : ℝ)) = 50 ∧
      edgeOpacity 150 50 = 1 / 5 ∧
      ¬ |edgeOpacity 150 50 - 1667 / 10000| ≤ 1 / 100 := by
  have h5 : edgeOpacity 150 50 = 1 / 5 := by norm_num [edgeOpacity]
  refine ⟨?_, ?_, h5, ?_⟩
  · rw [renderEdges_mem]
    refine ⟨by norm_num, nodeA, nodeB, by simp, by simp, ?_⟩
    norm_num [dist2, clampNode, nodeA, nodeB, min_def, max_def]
  · rw [show ((dist2 nodeA nodeB : ℚ) : ℝ) = 50 ^ 2 by norm_num [dist2, nodeA, nodeB]]
    exact Real.sqrt_sq (by norm_num)
  · rw [h5, abs_of_nonneg (by norm_num : (0 : ℚ) ≤ 1 / 5 - 1667 / 10000)]
    norm_num

/-- C7 amended: every drawn edge's opacity follows
`(1 - distance / maxDistance) * 0.3`, and in the scenario with nodes at
`(0, 0, 0)` and `(50, 0, 0)` and `maxDistance = 150` the edge is drawn
with opacity exactly `0.2` (the distance is exactly 50). -/
theorem edgeOpacity_amended :
    (0, 1) ∈ renderEdges 200 200 100 150 [nodeA, nodeB] ∧
      Real.sqrt ((dist2 nodeA nodeB : ℝ)) = 50 ∧
      edgeOpacity 150 50 = (1 - 50 / 150) * (3 / 10) ∧
      edgeOpacity 150 50 = 1 / 5 := by
  refine ⟨?_, ?_, rfl, by norm_num [edgeOpacity]⟩
  · rw [renderEdges_mem]
    refine ⟨by norm_num, nodeA, nodeB, by simp, by simp, ?_⟩
    norm_num [dist2, clampNode, nodeA, nodeB, min_def, max_def]
  · rw [show ((dist2 nodeA nodeB : ℚ) : ℝ) = 50 ^ 2 by norm_num [dist2, nodeA, nodeB]]
    exact Real.sqrt_sq (by norm_num)

end NetworkGraph
